import Mathlib

/-!
Verification development for the django-async job queue core
(src/async/api.py and src/async/models.py).

The Django ORM store is embedded shallowly: the database is an explicit
`Store` value (lists of persisted Job / Error / Group rows plus primary-key
counters), each persistence operation of the source becomes a pure Lean
function on `Store`, and fallible operations (Django `ValidationError`,
Python exceptions) return `Except`.  Timestamps (`datetime` values) are
rational numbers counted in seconds; the one irrational quantity produced
by the source, the failure backoff `60 * pow(errors, 1.6)`, is kept
symbolic in the `STime` type and given its real-number denotation by
`STime.toReal`.

External collaborators that are not part of the two source files are
modelled as explicit inputs: the dotted-path resolver
(`object_at_end_of_path`) is a function argument, invoked operations are
values of type `PyFunc`, and `timezone.now()` / `datetime.now()` readings
are explicit time arguments.  `simplejson` payloads are carried in decoded
form (`JsonVal`), relying on the round-trip `loads(dumps(x)) = x` of the
serialization collaborator; nested JSON arrays/objects and floats are not
needed by any claim and are omitted from the value domain.  All strings
handled here are ASCII, matching the implicit ASCII coercion Python 2
performs in `sha1(unicode(self))`.
-/

set_option maxRecDepth 20000

/-! ## SHA-1 (hashlib.sha1(...).hexdigest() used by Job.save) -/

def rotl32 (x k : Nat) : Nat :=
  ((x <<< k) ||| (x >>> (32 - k))) % 4294967296

def sha1F (t b c d : Nat) : Nat :=
  if t < 20 then (b &&& c) ||| ((b ^^^ 4294967295) &&& d)
  else if t < 40 then b ^^^ c ^^^ d
  else if t < 60 then (b &&& c) ||| (b &&& d) ||| (c &&& d)
  else b ^^^ c ^^^ d

def sha1K (t : Nat) : Nat :=
  if t < 20 then 0x5A827999
  else if t < 40 then 0x6ED9EBA1
  else if t < 60 then 0x8F1BBCDC
  else 0xCA62C1D6

/-- Message padding: append 0x80, zeros, and the 64-bit big-endian bit length
so the padded message is a multiple of 64 bytes. -/
def sha1Pad (msg : List Nat) : List Nat :=
  let bitLen := 8 * msg.length
  let z := (119 - msg.length % 64) % 64
  msg ++ [128] ++ List.replicate z 0 ++
    (List.range 8).map (fun i => (bitLen >>> (8 * (7 - i))) % 256)

/-- The 16 big-endian 32-bit words of block `b` of the padded message. -/
def sha1BlockWords (p : List Nat) (b : Nat) : Array Nat :=
  (List.range 16).foldl
    (fun a j =>
      a.push ((p.getD (64 * b + 4 * j) 0) * 16777216 +
        (p.getD (64 * b + 4 * j + 1) 0) * 65536 +
        (p.getD (64 * b + 4 * j + 2) 0) * 256 +
        p.getD (64 * b + 4 * j + 3) 0))
    #[]

/-- Extend 16 words to the 80-word schedule. -/
def sha1Extend (w : Array Nat) : Array Nat :=
  (List.range 64).foldl
    (fun w i =>
      w.push (rotl32
        ((w.getD (i + 13) 0) ^^^ (w.getD (i + 8) 0) ^^^
          (w.getD (i + 2) 0) ^^^ (w.getD i 0)) 1))
    w

def sha1Compress (h : Nat × Nat × Nat × Nat × Nat) (w : Array Nat) :
    Nat × Nat × Nat × Nat × Nat :=
  let (h0, h1, h2, h3, h4) := h
  let s := (List.range 80).foldl
    (fun s t =>
      let (a, b, c, d, e) := s
      let tmp := (rotl32 a 5 + sha1F t b c d + e + sha1K t + w.getD t 0) % 4294967296
      (tmp, a, rotl32 b 30, c, d))
    (h0, h1, h2, h3, h4)
  let (a, b, c, d, e) := s
  ((h0 + a) % 4294967296, (h1 + b) % 4294967296, (h2 + c) % 4294967296,
    (h3 + d) % 4294967296, (h4 + e) % 4294967296)

def hexDigitChar (d : Nat) : Char :=
  "0123456789abcdef".toList.getD d '0'

def hex8 (n : Nat) : List Char :=
  (List.range 8).map (fun i => hexDigitChar ((n >>> (4 * (7 - i))) % 16))

/-- `hashlib.sha1(s).hexdigest()` for an ASCII string `s`.  Python 2
implicitly encodes the unicode identity string with the ASCII codec
(raising on non-ASCII input, which is outside the modelled domain), so
code points are used directly as bytes. -/
def sha1Hex (s : String) : String :=
  let msg := s.toList.map Char.toNat
  let p := sha1Pad msg
  let h := (List.range (p.length / 64)).foldl
    (fun h b => sha1Compress h (sha1Extend (sha1BlockWords p b)))
    (0x67452301, 0xEFCDAB89, 0x98BADCFE, 0x10325476, 0xC3D2E1F0)
  let (h0, h1, h2, h3, h4) := h
  String.mk (hex8 h0 ++ hex8 h1 ++ hex8 h2 ++ hex8 h3 ++ hex8 h4)

namespace Async

/-! ## Python value rendering (Job.__unicode__) -/

/-- Decoded simplejson value.  The claims only exercise flat values
(null / bool / int / string); nested arrays and objects and floats are
outside the modelled domain. -/
inductive JsonVal where
  | jnull
  | jbool (b : Bool)
  | jnum (n : Int)
  | jstr (s : String)
deriving DecidableEq, Repr

def squoteChar : Char := Char.ofNat 39

def dquoteChar : Char := Char.ofNat 34

def backslashChar : Char := Char.ofNat 92

/-- Escape backslashes and the active quote character, as Python string
reprs do (other escapes concern non-printable characters, outside the
modelled ASCII-printable domain). -/
def pyStrEscape (q : Char) (s : String) : String :=
  String.join (s.toList.map fun c =>
    if c = backslashChar then String.mk [backslashChar, backslashChar]
    else if c = q then String.mk [backslashChar, q]
    else String.singleton c)

/-- Python 2 `repr` of a unicode string: u-prefixed quoted literal preferring
single quotes, switching to double quotes when the string contains a
single quote but no double quote. -/
def pyUnicodeRepr (s : String) : String :=
  if s.toList.contains squoteChar && !(s.toList.contains dquoteChar) then
    "u" ++ String.singleton dquoteChar ++ pyStrEscape dquoteChar s ++
      String.singleton dquoteChar
  else
    "u" ++ String.singleton squoteChar ++ pyStrEscape squoteChar s ++
      String.singleton squoteChar

/-- Python 2 `repr` of a simplejson-decoded value: ints print bare,
booleans as True/False, None, and strings as unicode literals (simplejson
decodes every JSON string to `unicode`). -/
def pyRepr : JsonVal → String
  | .jnull => "None"
  | .jbool true => "True"
  | .jbool false => "False"
  | .jnum n => toString n
  | .jstr s => pyUnicodeRepr s

/-- `Job.__unicode__`:
`', '.join([repr(s) for s in loads(self.args)] + ['%s=%s' % (k, repr(v))
for k, v in loads(self.kwargs).items()])` wrapped as `name(...)`.
kwargs are carried as an association list whose order stands for the
source dict's iteration order (lexicographic in all concrete inputs used
here, which is also the canonical order named by the spec). -/
def pyCallRepr (name : String) (args : List JsonVal)
    (kwargs : List (String × JsonVal)) : String :=
  name ++ "(" ++ String.intercalate ", "
    (args.map pyRepr ++ kwargs.map (fun kv => kv.1 ++ "=" ++ pyRepr kv.2)) ++ ")"

/-- The fingerprint `Job.save` stores: `sha1(unicode(self)).hexdigest()`. -/
def identityOf (name : String) (args : List JsonVal)
    (kwargs : List (String × JsonVal)) : String :=
  sha1Hex (pyCallRepr name args kwargs)

/-- `simplejson.dumps` of a flat value (used for the stored `result`). -/
def dumpsVal : JsonVal → String
  | .jnull => "null"
  | .jbool true => "true"
  | .jbool false => "false"
  | .jnum n => toString n
  | .jstr s => String.singleton dquoteChar ++ pyStrEscape dquoteChar s ++
      String.singleton dquoteChar

/-! ## Time values -/

/-- A value stored in the `scheduled` column.  `dt` is an ordinary
datetime (rational seconds).  `backoffFrom t e` records the failure-path
write `timezone.now() + timedelta(seconds=60 * pow(errors, 1.6))`, kept
symbolic because `60 * e ^ 1.6` is irrational; its denotation is
`STime.toReal`.  No operation of the core ever reads `scheduled` back, so
the symbolic form stays local to this column. -/
inductive STime where
  | dt (t : ℚ)
  | backoffFrom (t : ℚ) (errors : Nat)
deriving DecidableEq, Repr

/-- Real-number denotation of a `scheduled` entry; the backoff arm mirrors
the source expression `now + 60 * pow(errors, 1.6)` seconds. -/
noncomputable def STime.toReal : STime → ℝ
  | .dt t => (t : ℝ)
  | .backoffFrom t e => (t : ℝ) + 60 * (e : ℝ) ^ (1.6 : ℝ)

/-! ## Data model (persisted rows) -/

/-- A `Job` row / in-memory instance.  `id` is the primary key (`none`
until first saved).  `args`, `kwargs` and `meta` are carried in decoded
form; `result` holds the serialized return value text.  The source leaves
`priority` unset in `api.schedule` (a Django/database-level default
concern outside the two source files); the model makes it a plain integer
defaulting to 0, which no claim depends on. -/
structure Job where
  id : Option Nat := none
  name : String
  args : List JsonVal := []
  kwargs : List (String × JsonVal) := []
  meta : List (String × JsonVal) := []
  result : String := ""
  priority : Int := 0
  identity : String := ""
  added : Option ℚ := none
  scheduled : Option STime := none
  started : Option ℚ := none
  executed : Option ℚ := none
  cancelled : Option ℚ := none
  group : Option Nat := none
  fairness : Int := -1
deriving DecidableEq, Repr

/-- An `Error` row: `job` is the owning Job's primary key, `executed` the
auto-set creation timestamp, `exception` the stored `repr(exception)` and
`traceback` the stored `format_exc()`. -/
structure ErrorRow where
  id : Nat
  job : Option Nat
  executed : ℚ
  exception : String
  traceback : String
deriving DecidableEq, Repr

/-- A `Group` row: `final` is the primary key of the designated
completion-trigger Job. -/
structure Group where
  id : Option Nat := none
  reference : String
  description : Option String := none
  created : ℚ := 0
  final : Option Nat := none
deriving DecidableEq, Repr

/-- The explicit database: persisted rows plus auto-increment counters. -/
structure Store where
  jobs : List Job := []
  errors : List ErrorRow := []
  groups : List Group := []
  nextJobId : Nat := 1
  nextErrorId : Nat := 1
  nextGroupId : Nat := 1
deriving DecidableEq, Repr

def emptyStore : Store := {}

/-- A Python exception value: `text` is its `repr` (what `Error.exception`
stores), `trace` the `traceback.format_exc()` text at the raise site. -/
structure PyExc where
  text : String
  trace : String := ""
deriving DecidableEq, Repr

/-- An invocable operation, as produced by the external resolver: takes the
decoded positional arguments and the keyword-argument dict and either
returns a value or raises. -/
def PyFunc : Type := List JsonVal → List (String × JsonVal) → Except PyExc JsonVal

/-! ## Row lookups -/

def findJob (st : Store) (i : Nat) : Option Job :=
  st.jobs.find? (fun r => r.id = some i)

def findGroup (st : Store) (i : Nat) : Option Group :=
  st.groups.find? (fun g => g.id = some i)

/-- `self.errors.count()`: number of Error rows owned by the given Job pk. -/
def errorsCountFor (st : Store) (jid : Option Nat) : Nat :=
  match jid with
  | none => 0
  | some i => (st.errors.filter (fun e => e.job = some i)).length


/-! ## Job.save (src/async/models.py lines 192-205) -/

/-- `self in self.group.jobs.all()`: Django model equality is by primary
key, so membership means a stored row with this Job's pk sits in the
group; an unsaved Job (pk `None`) is never a member. -/
def memberOfGroup (st : Store) (j : Job) (gid : Nat) : Bool :=
  match j.id with
  | none => false
  | some i => st.jobs.any (fun r => r.id = some i ∧ r.group = some gid)

/-- `self.group.jobs.filter(Q(executed__isnull=False) |
Q(cancelled__isnull=False)).count() > 0`. -/
def groupHasTerminalMember (st : Store) (gid : Nat) : Bool :=
  st.jobs.any (fun r => r.group = some gid ∧ (r.executed.isSome ∨ r.cancelled.isSome))

/-- A Django `ValidationError` as a Python exception value. -/
def validationError (msg : String) : PyExc :=
  { text := "ValidationError(" ++ msg ++ ")", trace := "" }

/-- INSERT (assigning the next pk) or UPDATE (replacing the row with this
pk), returning the store and the saved instance. -/
def upsertJob (st : Store) (j : Job) : Store × Job :=
  match j.id with
  | some i =>
    if st.jobs.any (fun r => r.id = some i) then
      ({ st with jobs := st.jobs.map (fun r => if r.id = some i then j else r) }, j)
    else
      ({ st with jobs := st.jobs ++ [j] }, j)
  | none =>
    let j2 := { j with id := some st.nextJobId }
    ({ st with jobs := st.jobs ++ [j2], nextJobId := st.nextJobId + 1 }, j2)

def groupReferenceOf (st : Store) (g : Option Nat) : String :=
  match g with
  | none => ""
  | some gid =>
    match findGroup st gid with
    | some gr => gr.reference
    | none => ""

/-- `Job.save`: reject a non-member joining a group that already has a
terminal (executed or cancelled) member, recompute the identity
fingerprint, and persist. -/
def Job.save (j : Job) (st : Store) : Except PyExc (Store × Job) :=
  let blocked :=
    match j.group with
    | none => false
    | some gid =>
      if memberOfGroup st j gid then false
      else groupHasTerminalMember st gid
  if blocked then
    .error (validationError ("Cannot add job [" ++ j.name ++ "] to group [" ++
      groupReferenceOf st j.group ++ "] because this group has executed jobs."))
  else
    .ok (upsertJob st { j with identity := identityOf j.name j.args j.kwargs })

/-! ## Group.save (src/async/models.py lines 38-51) -/

/-- `Job.objects.filter(group__reference=self.reference).filter(
Q(executed__isnull=True) & Q(cancelled__isnull=True)).exclude(
group__id=self.id).count() > 0`: an open job in a group carrying this
reference, other than this group itself. -/
def groupSaveBlocked (st : Store) (g : Group) : Bool :=
  st.jobs.any (fun j =>
    match j.group with
    | none => false
    | some gid =>
      (match findGroup st gid with
       | some gr => decide (gr.reference = g.reference)
       | none => false) &&
      j.executed.isNone && j.cancelled.isNone && !(decide (g.id = some gid)))

/-- INSERT (assigning pk and the auto_now_add `created`) or UPDATE. -/
def upsertGroup (st : Store) (g : Group) (now : ℚ) : Store × Group :=
  match g.id with
  | some i =>
    if st.groups.any (fun r => r.id = some i) then
      ({ st with groups := st.groups.map (fun r => if r.id = some i then g else r) }, g)
    else
      ({ st with groups := st.groups ++ [g] }, g)
  | none =>
    let g2 := { g with id := some st.nextGroupId, created := now }
    ({ st with groups := st.groups ++ [g2], nextGroupId := st.nextGroupId + 1 }, g2)

/-- `Group.save`: refuse to write while another group with the same
reference still has an open member; then persist, and pull the designated
`final` Job into this group when it is set and elsewhere.  (In the source
a `ValidationError` from that final re-save propagates after the group row
was already committed; no claim exercises the path and it is modelled as a
plain failure.) -/
def Group.save (g : Group) (st : Store) (now : ℚ) : Except PyExc Store :=
  if groupSaveBlocked st g then
    .error (validationError ("Group reference [" ++ g.reference ++
      "] still has unexecuted jobs."))
  else
    let sg := upsertGroup st g now
    let st1 := sg.1
    let g2 := sg.2
    match g2.final with
    | none => .ok st1
    | some fid =>
      match findJob st1 fid with
      | none => .ok st1
      | some row =>
        if row.group = g2.id then .ok st1
        else
          match Job.save { row with group := g2.id } st1 with
          | .ok s => .ok s.1
          | .error e => .error e

/-! ## Queue facade (src/async/api.py) -/

/-- `api.schedule(function, args, kwargs, run_after, meta)`: build a
pending Job and save it.  `name` stands for `full_name(function)`; `now`
is the auto_now_add `added` timestamp. -/
def schedule (st : Store) (name : String) (args : List JsonVal)
    (kwargs : List (String × JsonVal)) (runAfter : Option ℚ)
    (meta : List (String × JsonVal)) (now : ℚ) : Except PyExc (Store × Job) :=
  Job.save { name := name, args := args, kwargs := kwargs, meta := meta,
             scheduled := runAfter.map STime.dt, added := some now } st

/-- `api.deschedule(function, args, kwargs)`: builds an unsaved probe Job
and runs `Job.objects.filter(identity=unicode(job)).update(
executed=datetime.now())` — the filter compares stored identities against
the raw call rendering `unicode(job)`, not against the sha1 fingerprint
that `Job.save` stores, and the bulk `update()` bypasses `save`. -/
def deschedule (st : Store) (name : String) (args : List JsonVal)
    (kwargs : List (String × JsonVal)) (now : ℚ) : Store :=
  let probe := pyCallRepr name args kwargs
  { st with jobs := st.jobs.map (fun r =>
      if r.identity = probe then { r with executed := some now } else r) }

structure HealthOutput where
  queueLength : Nat
  queueExecuted : Nat
  errorsNumber : Nat
deriving DecidableEq, Repr

/-- `api.health()`: `{queue: {length, executed}, errors: {number}}` —
total Job count, count of Jobs with `executed=None`, total Error count.
Its type alone records that it writes nothing. -/
def health (st : Store) : HealthOutput :=
  { queueLength := st.jobs.length
  , queueExecuted := (st.jobs.filter (fun j => j.executed.isNone)).length
  , errorsNumber := st.errors.length }

/-! ## Group engine (src/async/models.py lines 60-107) -/

/-- `self.jobs.all()` via the reverse foreign key. -/
def groupJobs (st : Store) (g : Group) : List Job :=
  match g.id with
  | none => []
  | some gid => st.jobs.filter (fun r => r.group = some gid)

/-- `Group.has_completed(exclude)`: at least one member, and every member
other than `exclude` is executed or cancelled. -/
def Group.hasCompleted (g : Group) (st : Store) (exclude : Option Nat) : Bool :=
  let all := groupJobs st g
  let q : List Job := match exclude with
    | some pk => all.filter (fun r => !(decide (r.id = some pk)))
    | none => all
  all.length > 0 &&
    (q.filter (fun r => r.executed.isNone && r.cancelled.isNone)).length = 0

/-- Aggregate `Count('executed')`: members with a non-null `executed`. -/
def executedCountOf (st : Store) (g : Group) : Nat :=
  ((groupJobs st g).filter (fun r => r.executed.isSome)).length

/-- Aggregate `Count('cancelled')`: members with a non-null `cancelled`. -/
def cancelledCountOf (st : Store) (g : Group) : Nat :=
  ((groupJobs st g).filter (fun r => r.cancelled.isSome)).length

/-- `total_done = total_executed_jobs + total_cancelled_jobs` (a member
with both fields set counts twice, exactly as the two SQL counts do). -/
def doneCountOf (st : Store) (g : Group) : Nat :=
  executedCountOf st g + cancelledCountOf st g

/-- The spec's "open" group: at least one member that is neither executed
nor cancelled. -/
def isOpenGroup (st : Store) (g : Group) : Bool :=
  (groupJobs st g).any (fun r => r.executed.isNone && r.cancelled.isNone)

def pickLatestExecuted (l : List Job) : Option Job :=
  l.foldl (fun acc r =>
    match acc with
    | none => some r
    | some b => if b.executed.getD 0 ≤ r.executed.getD 0 then some r else some b) none

/-- `Group.latest_executed_job`: the member with the greatest `executed`
when at least one member has a non-null `executed`, otherwise the implicit
`None`.  (`latest('executed')`; ties are the storage collaborator's choice
— the later row wins here — and every caller reads only the maximal
`executed` value, which is tie-independent.) -/
def Group.latestExecutedJob (g : Group) (st : Store) : Option Job :=
  let ex := (groupJobs st g).filter (fun r => r.executed.isSome)
  if ex.length > 0 then pickLatestExecuted ex else none

/-- `timedelta.seconds`: the seconds component after normalization to
(days, seconds, microseconds): the floor of the duration in seconds,
taken modulo one day (Python `%` with positive modulus, so nonnegative
also for negative durations). -/
def tdSeconds (q : ℚ) : ℤ := ⌊q⌋ % 86400

/-- `Group.estimate_execution_duration`: returns
(estimated_time, remaining, time_consumed) in rational seconds, or all
`none` when the group is empty or no member is done.  The `.error` arm is
the Python exception escaping from
`self.latest_executed_job().executed - self.created` when no member was
ever executed (`latest_executed_job()` returned `None`). -/
def Group.estimateExecutionDuration (g : Group) (st : Store) (now : ℚ) :
    Except PyExc (Option ℚ × Option ℚ × Option ℚ) :=
  let totalJobs := (groupJobs st g).length
  let totalDone := doneCountOf st g
  if totalJobs > 0 then
    if totalDone = 0 then .ok (none, none, none)
    else if !(g.hasCompleted st none) then
      let timeConsumed : ℚ := now - g.created
      let estimatedTime : ℚ :=
        ((tdSeconds timeConsumed : ℚ) / (totalDone : ℚ)) * (totalJobs : ℚ)
      .ok (some estimatedTime, some (estimatedTime - timeConsumed), some timeConsumed)
    else
      match g.latestExecutedJob st with
      | none =>
        .error { text := "AttributeError: NoneType object has no attribute executed" }
      | some jb =>
        match jb.executed with
        | none =>
          -- dead branch: latestExecutedJob only returns members with a
          -- non-null executed (Python would raise on None minus datetime)
          .error { text := "TypeError: unsupported operand types" }
        | some te =>
          .ok (some (te - g.created), some 0, some (te - g.created))
  else .ok (none, none, none)

/-! ## Job.execute (src/async/models.py lines 207-255) -/

/-- Python dict assignment `kwargs[k] = v` on the association list:
overwrite in place or append. -/
def setKwarg (kw : List (String × JsonVal)) (k : String) (v : JsonVal) :
    List (String × JsonVal) :=
  if kw.any (fun p => p.1 = k) then
    kw.map (fun p => if p.1 = k then (k, v) else p)
  else kw ++ [(k, v)]

/-- The failure path of `Job.execute`: on the in-memory instance, clear
`started`, set `scheduled` to now plus the backoff for
`errors = 1 + self.errors.count()`, decrement `priority`; then run the
`record()` transaction — create the Error row (storing
`repr(exception)` and the trace) and re-save the job — committing both or
neither.  Returns the exception that propagates (the original via the
bare `raise`, or the `ValidationError` aborting `record()` itself) with
the committed store. -/
def failRecord (st : Store) (jm : Job) (e : PyExc) (tf : ℚ) : PyExc × Store :=
  let errors := 1 + errorsCountFor st jm.id
  let jm2 := { jm with started := none,
                       scheduled := some (STime.backoffFrom tf errors),
                       priority := jm.priority - 1 }
  let st1 := { st with
    errors := st.errors ++ [{ id := st.nextErrorId, job := jm.id, executed := tf,
                              exception := e.text, traceback := e.trace }],
    nextErrorId := st.nextErrorId + 1 }
  match Job.save jm2 st1 with
  | .ok s => (e, s.1)
  | .error ve => (ve, st)

/-- `Job.execute`: decode args/kwargs, inject `priority` and `fairness`,
resolve the dotted name through the external resolver, then run the
success transaction (set `started = now`, invoke, set `executed = now`,
serialize the return value into `result`, save — committed together) or,
on any exception, the failure path.  `t1`/`t2` are the success
transaction's two `timezone.now()` readings and `tf` the failure one. -/
def Job.execute (j : Job) (resolve : String → Except PyExc PyFunc)
    (st : Store) (t1 t2 tf : ℚ) : Except PyExc JsonVal × Store :=
  match resolve j.name with
  | .error e =>
    let r := failRecord st j e tf
    (.error r.1, r.2)
  | .ok f =>
    let callKwargs := setKwarg (setKwarg j.kwargs "priority" (.jnum j.priority))
      "fairness" (.jnum j.fairness)
    let j1 := { j with started := some t1 }
    match f j.args callKwargs with
    | .error e =>
      let r := failRecord st j1 e tf
      (.error r.1, r.2)
    | .ok v =>
      let j2 := { j1 with executed := some t2, result := dumpsVal v }
      match Job.save j2 st with
      | .ok s => (.ok v, s.1)
      | .error ve =>
        -- the aborted success transaction leaves the in-memory mutations
        -- in place, exactly as the source does
        let r := failRecord st j2 ve tf
        (.error r.1, r.2)

/-! ## Committed writes and reachability -/

/-- One committed write of the engine: any persistence operation of the
two source files, on any inputs. -/
inductive Step : Store → Store → Prop where
  | scheduleStep (st : Store) (name : String) (args : List JsonVal)
      (kwargs : List (String × JsonVal)) (runAfter : Option ℚ)
      (meta : List (String × JsonVal)) (now : ℚ) (st2 : Store) (j : Job) :
      schedule st name args kwargs runAfter meta now = .ok (st2, j) → Step st st2
  | descheduleStep (st : Store) (name : String) (args : List JsonVal)
      (kwargs : List (String × JsonVal)) (now : ℚ) :
      Step st (deschedule st name args kwargs now)
  | jobSaveStep (st : Store) (j : Job) (st2 : Store) (j2 : Job) :
      Job.save j st = .ok (st2, j2) → Step st st2
  | groupSaveStep (st : Store) (g : Group) (now : ℚ) (st2 : Store) :
      Group.save g st now = .ok st2 → Step st st2
  | executeStep (st : Store) (j : Job) (resolve : String → Except PyExc PyFunc)
      (t1 t2 tf : ℚ) (r : Except PyExc JsonVal) (st2 : Store) :
      Job.execute j resolve st t1 t2 tf = (r, st2) → Step st st2

/-- Stores reachable from the empty database through committed writes. -/
inductive Reachable : Store → Prop where
  | init : Reachable emptyStore
  | step (st st2 : Store) : Reachable st → Step st st2 → Reachable st2


/-! ## Helper lemmas -/

theorem findJob_spec {st : Store} {i : Nat} {r : Job}
    (h : findJob st i = some r) : r ∈ st.jobs ∧ r.id = some i := by
  have h1 := List.mem_of_find?_eq_some h
  have h2 := List.find?_some h
  simp only [decide_eq_true_eq] at h2
  exact ⟨h1, h2⟩

theorem upsertJob_errors (st : Store) (j : Job) :
    (upsertJob st j).1.errors = st.errors := by
  unfold upsertJob
  cases j.id with
  | none => rfl
  | some i =>
    dsimp only
    split <;> rfl

theorem upsertJob_groups (st : Store) (j : Job) :
    (upsertJob st j).1.groups = st.groups := by
  unfold upsertJob
  cases j.id with
  | none => rfl
  | some i =>
    dsimp only
    split <;> rfl

theorem upsertJob_snd_identity (st : Store) (j : Job) :
    (upsertJob st j).2.identity = j.identity := by
  unfold upsertJob
  cases j.id with
  | none => rfl
  | some i =>
    dsimp only
    split <;> rfl

theorem upsertJob_snd_mem (st : Store) (j : Job) :
    (upsertJob st j).2 ∈ (upsertJob st j).1.jobs := by
  unfold upsertJob
  cases j.id with
  | none =>
    simp
  | some i =>
    dsimp only
    by_cases hany : st.jobs.any (fun r => r.id = some i) = true
    · rw [if_pos hany]
      simp only [List.any_eq_true, decide_eq_true_eq] at hany
      obtain ⟨r, hr, hri⟩ := hany
      exact List.mem_map.mpr ⟨r, hr, by rw [if_pos hri]⟩
    · rw [if_neg hany]
      simp

theorem find_map_replace {l : List Job} {i : Nat} {j : Job}
    (hj : j.id = some i) (hex : ∃ r, r ∈ l ∧ r.id = some i) :
    (l.map (fun r => if r.id = some i then j else r)).find?
      (fun r => r.id = some i) = some j := by
  induction l with
  | nil =>
    obtain ⟨r, hr, _⟩ := hex
    exact absurd hr (List.not_mem_nil r)
  | cons a t ih =>
    by_cases h : a.id = some i
    · simp [List.find?_cons, h, hj]
    · obtain ⟨r, hr, hri⟩ := hex
      rcases List.mem_cons.mp hr with rfl | hrt
      · exact absurd hri h
      · have hb : (decide (a.id = some i)) = false := by
          simpa using h
        simp only [List.map_cons, if_neg h, List.find?_cons, hb]
        exact ih ⟨r, hrt, hri⟩

theorem findJob_upsert_existing {st : Store} {j : Job} {i : Nat}
    (hj : j.id = some i) (hex : ∃ r, r ∈ st.jobs ∧ r.id = some i) :
    findJob (upsertJob st j).1 i = some j := by
  have hany : st.jobs.any (fun r => r.id = some i) = true := by
    simp only [List.any_eq_true, decide_eq_true_eq]
    exact hex
  unfold upsertJob
  rw [hj]
  dsimp only
  rw [if_pos hany]
  unfold findJob
  exact find_map_replace hj hex

theorem jobSave_of_member {st : Store} {j : Job} {i : Nat}
    (hid : j.id = some i)
    (hmem : ∃ r, r ∈ st.jobs ∧ r.id = some i ∧ r.group = j.group) :
    Job.save j st =
      .ok (upsertJob st { j with identity := identityOf j.name j.args j.kwargs }) := by
  unfold Job.save
  cases hg : j.group with
  | none => simp [hg]
  | some gid =>
    have hmob : memberOfGroup st j gid = true := by
      unfold memberOfGroup
      rw [hid]
      simp only [List.any_eq_true, decide_eq_true_eq]
      obtain ⟨r, hr, hri, hrg⟩ := hmem
      exact ⟨r, hr, hri, by rw [hrg, hg]⟩
    simp [hg, hmob]

theorem errorsCountFor_append {st st2 : Store} {i : Nat} {err : ErrorRow}
    (h : st2.errors = st.errors ++ [err]) (hj : err.job = some i) :
    errorsCountFor st2 (some i) = errorsCountFor st (some i) + 1 := by
  unfold errorsCountFor
  dsimp only
  rw [h, List.filter_append]
  simp [hj]

theorem errorsCountFor_congr {st st2 : Store} {jid : Option Nat}
    (h : st2.errors = st.errors) :
    errorsCountFor st2 jid = errorsCountFor st jid := by
  cases jid with
  | none => rfl
  | some i =>
    unfold errorsCountFor
    dsimp only
    rw [h]


theorem failRecord_facts {st : Store} {jm : Job} {e : PyExc} {tf : ℚ} {i : Nat}
    (hid : jm.id = some i)
    (hmem : ∃ r, r ∈ st.jobs ∧ r.id = some i ∧ r.group = jm.group) :
    (failRecord st jm e tf).1 = e ∧
    (failRecord st jm e tf).2.errors =
      st.errors ++ [{ id := st.nextErrorId, job := jm.id, executed := tf,
                      exception := e.text, traceback := e.trace }] ∧
    findJob (failRecord st jm e tf).2 i =
      some { jm with
        started := none,
        scheduled := some (STime.backoffFrom tf (1 + errorsCountFor st jm.id)),
        priority := jm.priority - 1,
        identity := identityOf jm.name jm.args jm.kwargs } ∧
    (failRecord st jm e tf).2.groups = st.groups := by
  have hsave := @jobSave_of_member
    { st with
      errors := st.errors ++ [{ id := st.nextErrorId, job := jm.id, executed := tf,
                                exception := e.text, traceback := e.trace }],
      nextErrorId := st.nextErrorId + 1 }
    { jm with started := none,
              scheduled := some (STime.backoffFrom tf (1 + errorsCountFor st jm.id)),
              priority := jm.priority - 1 }
    i hid hmem
  simp only [failRecord]
  rw [hsave]
  refine ⟨rfl, ?_, ?_, ?_⟩
  · rw [upsertJob_errors]
  · exact findJob_upsert_existing hid ⟨hmem.choose, hmem.choose_spec.1, hmem.choose_spec.2.1⟩
  · rw [upsertJob_groups]


/-! ## Concrete fixtures shared by witnesses and counterexamples -/

def jX : Job := { id := some 1, name := "t.f", priority := 7 }

def stX : Store := { jobs := [jX], nextJobId := 2 }

def excBoom : PyExc := { text := "ValueError: boom", trace := "Traceback: boom" }

def raisingOp : PyFunc := fun _ _ => .error excBoom

def returningOp : PyFunc := fun _ _ => .ok (.jnum 42)

def failingResolve : String → Except PyExc PyFunc := fun _ => .ok raisingOp

def okResolve : String → Except PyExc PyFunc := fun _ => .ok returningOp

/-! ## Claim theorems -/

/-- Claim C2: when the invoked operation raises `exc`, `Job.execute`
afterwards leaves `started` null, `priority` decremented by one,
`scheduled` equal to now plus `60 * errorCount ^ 1.6` seconds where
`errorCount` is one plus the previously recorded Errors of this Job,
appends exactly one Error whose exception text is the exception's textual
form and whose traceback holds the full trace, and re-raises `exc` to the
caller. -/
theorem execute_failure_path_spec
    (st : Store) (j : Job) (resolve : String → Except PyExc PyFunc)
    (f : PyFunc) (exc : PyExc) (t1 t2 tf : ℚ) (i : Nat)
    (hres : resolve j.name = .ok f)
    (hcall : f j.args (setKwarg (setKwarg j.kwargs "priority" (.jnum j.priority))
      "fairness" (.jnum j.fairness)) = .error exc)
    (hid : j.id = some i)
    (hmem : ∃ r, r ∈ st.jobs ∧ r.id = some i ∧ r.group = j.group) :
    (Job.execute j resolve st t1 t2 tf).1 = .error exc ∧
    (Job.execute j resolve st t1 t2 tf).2.errors =
      st.errors ++ [{ id := st.nextErrorId, job := some i, executed := tf,
                      exception := exc.text, traceback := exc.trace }] ∧
    errorsCountFor (Job.execute j resolve st t1 t2 tf).2 (some i) =
      errorsCountFor st (some i) + 1 ∧
    findJob (Job.execute j resolve st t1 t2 tf).2 i =
      some { j with
        started := none,
        scheduled := some (STime.backoffFrom tf (1 + errorsCountFor st (some i))),
        priority := j.priority - 1,
        identity := identityOf j.name j.args j.kwargs } ∧
    (STime.backoffFrom tf (1 + errorsCountFor st (some i))).toReal =
      (tf : ℝ) + 60 * ((1 + errorsCountFor st (some i) : ℕ) : ℝ) ^ (1.6 : ℝ) := by
  obtain ⟨h1, h2, h3, h4⟩ :=
    @failRecord_facts st { j with started := some t1 } exc tf i hid hmem
  dsimp only at h1 h2 h3 h4
  rw [hid] at h1 h2 h3
  simp only [Job.execute]
  rw [hres]
  dsimp only
  rw [hcall]
  dsimp only
  simp only [hid]
  refine ⟨by rw [h1], h2, errorsCountFor_append h2 rfl, h3, rfl⟩


theorem execute_resolutionError_eq
    {st : Store} {j : Job} {resolve : String → Except PyExc PyFunc}
    {e : PyExc} {t1 t2 tf : ℚ}
    (hres : resolve j.name = .error e) :
    Job.execute j resolve st t1 t2 tf =
      ((Except.error (failRecord st j e tf).1 : Except PyExc JsonVal),
       (failRecord st j e tf).2) := by
  simp only [Job.execute, hres]

theorem execute_callError_eq
    {st : Store} {j : Job} {resolve : String → Except PyExc PyFunc}
    {f : PyFunc} {e : PyExc} {t1 t2 tf : ℚ}
    (hres : resolve j.name = .ok f)
    (hcall : f j.args (setKwarg (setKwarg j.kwargs "priority" (.jnum j.priority))
      "fairness" (.jnum j.fairness)) = .error e) :
    Job.execute j resolve st t1 t2 tf =
      ((Except.error (failRecord st { j with started := some t1 } e tf).1 :
          Except PyExc JsonVal),
       (failRecord st { j with started := some t1 } e tf).2) := by
  simp only [Job.execute]
  rw [hres]
  dsimp only
  rw [hcall]

theorem execute_success_eq
    {st : Store} {j : Job} {resolve : String → Except PyExc PyFunc}
    {f : PyFunc} {v : JsonVal} {t1 t2 tf : ℚ} {i : Nat}
    (hres : resolve j.name = .ok f)
    (hcall : f j.args (setKwarg (setKwarg j.kwargs "priority" (.jnum j.priority))
      "fairness" (.jnum j.fairness)) = .ok v)
    (hid : j.id = some i)
    (hmem : ∃ r, r ∈ st.jobs ∧ r.id = some i ∧ r.group = j.group) :
    Job.execute j resolve st t1 t2 tf =
      ((Except.ok v : Except PyExc JsonVal),
       (upsertJob st { j with
          started := some t1, executed := some t2,
          result := dumpsVal v,
          identity := identityOf j.name j.args j.kwargs }).1) := by
  have hsave := @jobSave_of_member st
    { j with started := some t1, executed := some t2, result := dumpsVal v }
    i hid hmem
  simp only [Job.execute]
  rw [hres]
  dsimp only
  rw [hcall]
  dsimp only
  rw [hsave]


/-- Claim C8: when the invoked operation returns `v`, `Job.execute`
afterwards leaves `executed` and `started` non-null (the transaction's two
now-readings), stores the serialized return value in `result`, leaves the
Job's error history unchanged, and commits all of it in the one state the
success transaction produces. -/
theorem execute_success_path_spec
    (st : Store) (j : Job) (resolve : String → Except PyExc PyFunc)
    (f : PyFunc) (v : JsonVal) (t1 t2 tf : ℚ) (i : Nat)
    (hres : resolve j.name = .ok f)
    (hcall : f j.args (setKwarg (setKwarg j.kwargs "priority" (.jnum j.priority))
      "fairness" (.jnum j.fairness)) = .ok v)
    (hid : j.id = some i)
    (hmem : ∃ r, r ∈ st.jobs ∧ r.id = some i ∧ r.group = j.group) :
    (Job.execute j resolve st t1 t2 tf).1 = .ok v ∧
    (Job.execute j resolve st t1 t2 tf).2.errors = st.errors ∧
    errorsCountFor (Job.execute j resolve st t1 t2 tf).2 (some i) =
      errorsCountFor st (some i) ∧
    findJob (Job.execute j resolve st t1 t2 tf).2 i =
      some { j with
        started := some t1, executed := some t2,
        result := dumpsVal v,
        identity := identityOf j.name j.args j.kwargs } := by
  rw [execute_success_eq hres hcall hid hmem]
  refine ⟨rfl, upsertJob_errors st _, errorsCountFor_congr (upsertJob_errors st _), ?_⟩
  exact findJob_upsert_existing hid ⟨hmem.choose, hmem.choose_spec.1, hmem.choose_spec.2.1⟩

/-- Witness for C8 at a concrete store, job and operation. -/
theorem execute_success_path_spec_witness :
    (Job.execute jX okResolve stX 10 11 12).1 = .ok (.jnum 42) ∧
    (Job.execute jX okResolve stX 10 11 12).2.errors = stX.errors ∧
    errorsCountFor (Job.execute jX okResolve stX 10 11 12).2 (some 1) =
      errorsCountFor stX (some 1) ∧
    findJob (Job.execute jX okResolve stX 10 11 12).2 1 =
      some { jX with
        started := some 10, executed := some 11,
        result := dumpsVal (.jnum 42),
        identity := identityOf jX.name jX.args jX.kwargs } :=
  execute_success_path_spec stX jX okResolve returningOp (.jnum 42) 10 11 12 1
    rfl rfl rfl ⟨jX, List.mem_cons_self jX [], rfl, rfl⟩

/-- Witness for C2 at a concrete store, job and raising operation. -/
theorem execute_failure_path_spec_witness :
    (Job.execute jX failingResolve stX 10 11 12).1 = .error excBoom ∧
    (Job.execute jX failingResolve stX 10 11 12).2.errors =
      stX.errors ++ [{ id := stX.nextErrorId, job := some 1, executed := 12,
                       exception := excBoom.text, traceback := excBoom.trace }] ∧
    errorsCountFor (Job.execute jX failingResolve stX 10 11 12).2 (some 1) =
      errorsCountFor stX (some 1) + 1 ∧
    findJob (Job.execute jX failingResolve stX 10 11 12).2 1 =
      some { jX with
        started := none,
        scheduled := some (STime.backoffFrom 12 (1 + errorsCountFor stX (some 1))),
        priority := jX.priority - 1,
        identity := identityOf jX.name jX.args jX.kwargs } ∧
    (STime.backoffFrom 12 (1 + errorsCountFor stX (some 1))).toReal =
      ((12 : ℚ) : ℝ) + 60 * ((1 + errorsCountFor stX (some 1) : ℕ) : ℝ) ^ (1.6 : ℝ) :=
  execute_failure_path_spec stX jX failingResolve raisingOp excBoom 10 11 12 1
    rfl rfl rfl ⟨jX, List.mem_cons_self jX [], rfl, rfl⟩

/-- Claim C3: on the failure path the rescheduling of the Job and the new
Error row are committed together: in the single store a failing
`Job.execute` produces, the Job's error count went up by exactly one and
its row shows the decremented priority, cleared `started` and the backoff
`scheduled`; and on the success path the error count is untouched and the
priority unchanged.  (The inner `record()`/`execute()` transactions are
modelled as single state updates, so no committed state between the two
writes exists at all.) -/
theorem execute_failure_atomic_pairing
    (st : Store) (j : Job) (resolve : String → Except PyExc PyFunc)
    (t1 t2 tf : ℚ) (i : Nat)
    (hid : j.id = some i)
    (hmem : ∃ r, r ∈ st.jobs ∧ r.id = some i ∧ r.group = j.group) :
    (∀ e, (Job.execute j resolve st t1 t2 tf).1 = .error e →
      errorsCountFor (Job.execute j resolve st t1 t2 tf).2 (some i) =
        errorsCountFor st (some i) + 1 ∧
      ∃ jj, findJob (Job.execute j resolve st t1 t2 tf).2 i = some jj ∧
        jj.priority = j.priority - 1 ∧ jj.started = none ∧
        jj.scheduled = some (STime.backoffFrom tf (1 + errorsCountFor st (some i)))) ∧
    (∀ v, (Job.execute j resolve st t1 t2 tf).1 = .ok v →
      errorsCountFor (Job.execute j resolve st t1 t2 tf).2 (some i) =
        errorsCountFor st (some i) ∧
      ∃ jj, findJob (Job.execute j resolve st t1 t2 tf).2 i = some jj ∧
        jj.priority = j.priority ∧ jj.started = some t1) := by
  cases hres : resolve j.name with
  | error e0 =>
    obtain ⟨h1, h2, h3, h4⟩ := @failRecord_facts st j e0 tf i hid hmem
    rw [execute_resolutionError_eq hres]
    constructor
    · intro e _
      exact ⟨errorsCountFor_append h2 hid, _, h3, rfl, rfl, by rw [hid]⟩
    · intro v hv
      simp at hv
  | ok f =>
    cases hcall : f j.args (setKwarg (setKwarg j.kwargs "priority" (.jnum j.priority))
        "fairness" (.jnum j.fairness)) with
    | error e0 =>
      obtain ⟨h1, h2, h3, h4⟩ :=
        @failRecord_facts st { j with started := some t1 } e0 tf i hid hmem
      dsimp only at h2 h3
      rw [execute_callError_eq hres hcall]
      constructor
      · intro e _
        exact ⟨errorsCountFor_append h2 hid, _, h3, rfl, rfl, by rw [hid]⟩
      · intro v hv
        simp at hv
    | ok v =>
      rw [execute_success_eq hres hcall hid hmem]
      constructor
      · intro e he
        simp at he
      · intro v2 _
        refine ⟨errorsCountFor_congr (upsertJob_errors st _), _,
          findJob_upsert_existing hid ⟨hmem.choose, hmem.choose_spec.1, hmem.choose_spec.2.1⟩,
          rfl, rfl⟩

/-- Witness for C3 at a concrete store, job and raising operation. -/
theorem execute_failure_atomic_pairing_witness :
    errorsCountFor (Job.execute jX failingResolve stX 10 11 12).2 (some 1) =
      errorsCountFor stX (some 1) + 1 ∧
    (∃ jj, findJob (Job.execute jX failingResolve stX 10 11 12).2 1 = some jj ∧
      jj.priority = jX.priority - 1 ∧ jj.started = none ∧
      jj.scheduled = some (STime.backoffFrom 12 (1 + errorsCountFor stX (some 1)))) :=
  (execute_failure_atomic_pairing stX jX failingResolve 10 11 12 1
    rfl ⟨jX, List.mem_cons_self jX [], rfl, rfl⟩).1 excBoom rfl


theorem jobSave_ok_inv {st : Store} {j : Job} {st2 : Store} {jj : Job}
    (h : Job.save j st = .ok (st2, jj)) :
    st2 = (upsertJob st { j with identity := identityOf j.name j.args j.kwargs }).1 ∧
    jj = (upsertJob st { j with identity := identityOf j.name j.args j.kwargs }).2 := by
  unfold Job.save at h
  split at h
  · simp only [Bool.false_eq_true, if_false] at h
    rw [Except.ok.injEq] at h
    exact ⟨(congrArg Prod.fst h).symm, (congrArg Prod.snd h).symm⟩
  · dsimp only at h
    split at h
    · simp only [Bool.false_eq_true, if_false] at h
      rw [Except.ok.injEq] at h
      exact ⟨(congrArg Prod.fst h).symm, (congrArg Prod.snd h).symm⟩
    · split at h
      · simp at h
      · rw [Except.ok.injEq] at h
        exact ⟨(congrArg Prod.fst h).symm, (congrArg Prod.snd h).symm⟩

/-- The store after `schedule(f, [], {})` (with `full_name(f) = "f"`) on an
empty database at time 0. -/
def c1St1 : Store :=
  match schedule emptyStore "f" [] [] none [] 0 with
  | .ok s => s.1
  | .error _ => emptyStore

/-- ... followed by `deschedule(f, [], {})` at time 5. -/
def c1St2 : Store := deschedule c1St1 "f" [] [] 5

/-- Claim C1, evaluated at the failing input: `schedule` stores the sha1
hexdigest of the rendering `f()` as the Job's identity, but `deschedule`
filters stored identities against the raw rendering itself, which no sha1
hexdigest ever equals — so the freshly scheduled Job still has
`executed = None` (and `cancelled = None`) after `deschedule`, where both
the claim and the source docstring ("Remove any instances of the job from
the queue") require `executed` to be set. -/
theorem deschedule_misses_scheduled_job :
    c1St1.jobs.map Job.identity = [sha1Hex (pyCallRepr "f" [] [])] ∧
    sha1Hex (pyCallRepr "f" [] []) ≠ pyCallRepr "f" [] [] ∧
    c1St2.jobs.map Job.executed = [none] ∧
    c1St2.jobs.map Job.cancelled = [none] :=
  ⟨by decide, by decide, by decide, by decide⟩

/-- Claim C4 (amended): the identity fingerprint is a deterministic pure
function of (name, args, kwargs) alone — two jobs agreeing on those three
fields get equal fingerprints whatever their other fields (runAfter, meta,
priority, ...) are — and a successful `Job.save` always persists the saved
row carrying exactly this fingerprint. -/
theorem identity_function_of_call_only :
    (∀ j j2 : Job, j.name = j2.name → j.args = j2.args → j.kwargs = j2.kwargs →
      identityOf j.name j.args j.kwargs = identityOf j2.name j2.args j2.kwargs) ∧
    (∀ st j st2 jj, Job.save j st = .ok (st2, jj) →
      jj ∈ st2.jobs ∧ jj.identity = identityOf j.name j.args j.kwargs) := by
  constructor
  · intro j j2 h1 h2 h3
    rw [h1, h2, h3]
  · intro st j st2 jj h
    obtain ⟨hst2, hjj⟩ := jobSave_ok_inv h
    subst hst2
    subst hjj
    exact ⟨upsertJob_snd_mem st _, by rw [upsertJob_snd_identity]⟩

def c4Sv : Store × Job :=
  match Job.save { name := "g" } emptyStore with
  | .ok s => s
  | .error _ => (emptyStore, { name := "" })

/-- Witness for the amended C4 at a concrete save. -/
theorem identity_function_of_call_only_witness :
    c4Sv.2 ∈ c4Sv.1.jobs ∧ c4Sv.2.identity = identityOf "g" [] [] :=
  identity_function_of_call_only.2 emptyStore { name := "g" } c4Sv.1 c4Sv.2 rfl

/-- Claim C4 counterexample: the fingerprint is not injective on
(name, args, kwargs).  kwargs keys are rendered unquoted by
`'%s=%s' % (k, repr(v))`, so the two distinct kwargs dicts
`{"a": 1, "b": 2}` and `{"a=1, b": 2}` both render as `f(a=1, b=2)` and
hash to the same identity. -/
theorem identity_not_injective_counterexample :
    identityOf "f" [] [("a", .jnum 1), ("b", .jnum 2)] =
      identityOf "f" [] [("a=1, b", .jnum 2)] ∧
    pyCallRepr "f" [] [("a", .jnum 1), ("b", .jnum 2)] = "f(a=1, b=2)" ∧
    pyCallRepr "f" [] [("a=1, b", .jnum 2)] = "f(a=1, b=2)" ∧
    ([("a", JsonVal.jnum 1), ("b", JsonVal.jnum 2)] : List (String × JsonVal)) ≠
      [("a=1, b", JsonVal.jnum 2)] :=
  ⟨by decide, by decide, by decide, by decide⟩

/-- Claim C9: `health()` is a pure aggregation — a function of the store
returning the total Job count, the count of Jobs with `executed = None`
and the total Error count, and on the empty store all three are zero.
(Its Lean type `Store → HealthOutput` carries no store out, which is the
model's rendering of "modifies no state".) -/
theorem health_pure_counts :
    (∀ st : Store, health st =
      { queueLength := st.jobs.length,
        queueExecuted := st.jobs.countP (fun j => j.executed.isNone),
        errorsNumber := st.errors.length }) ∧
    health emptyStore = { queueLength := 0, queueExecuted := 0, errorsNumber := 0 } := by
  constructor
  · intro st
    simp only [health, HealthOutput.mk.injEq]
    exact ⟨trivial, (List.countP_eq_length_filter _ _).symm, trivial⟩
  · rfl


/-- Witness for C9 at the empty store. -/
theorem health_pure_counts_witness :
    health emptyStore = { queueLength := 0, queueExecuted := 0, errorsNumber := 0 } :=
  health_pure_counts.2

/-- Claim C6: a Job save with a group set is rejected with the source's
`ValidationError` when the Job is not already a stored member of that
group and the group has a member with `executed` or `cancelled` non-null,
and nothing is persisted (the error carries no store); re-saving an
existing member succeeds regardless of terminal members.  The two final
conjuncts characterize the membership and terminal-member tests. -/
theorem job_save_group_join_validation
    (st : Store) (j : Job) (gid : Nat) (hg : j.group = some gid) :
    (memberOfGroup st j gid = false → groupHasTerminalMember st gid = true →
      Job.save j st = .error (validationError ("Cannot add job [" ++ j.name ++
        "] to group [" ++ groupReferenceOf st j.group ++
        "] because this group has executed jobs."))) ∧
    (memberOfGroup st j gid = true →
      Job.save j st =
        .ok (upsertJob st { j with identity := identityOf j.name j.args j.kwargs })) ∧
    (memberOfGroup st j gid = true ↔
      ∃ i, j.id = some i ∧ ∃ r ∈ st.jobs, r.id = some i ∧ r.group = some gid) ∧
    (groupHasTerminalMember st gid = true ↔
      ∃ r ∈ st.jobs, r.group = some gid ∧ (r.executed ≠ none ∨ r.cancelled ≠ none)) := by
  refine ⟨?_, ?_, ?_, ?_⟩
  · intro hmob hterm
    unfold Job.save
    simp [hg, hmob, hterm]
  · intro hmob
    unfold Job.save
    simp [hg, hmob]
  · unfold memberOfGroup
    cases hjid : j.id with
    | none => simp
    | some i =>
      simp only [List.any_eq_true, decide_eq_true_eq, Option.some.injEq]
      constructor
      · rintro ⟨r, hr, hri, hrg⟩
        exact ⟨i, rfl, r, hr, hri, hrg⟩
      · rintro ⟨i2, hi2, r, hr, hri, hrg⟩
        subst hi2
        exact ⟨r, hr, hri, hrg⟩
  · unfold groupHasTerminalMember
    simp only [List.any_eq_true, decide_eq_true_eq, Option.isSome_iff_ne_none]

def gW : Group := { id := some 1, reference := "R", created := 0 }

def jT : Job := { id := some 1, name := "t.f", group := some 1, executed := some 4 }

def stW : Store := { jobs := [jT], groups := [gW], nextJobId := 2, nextGroupId := 2 }

def jN : Job := { name := "t.g", group := some 1 }

/-- Witness for C6: a fresh non-member Job is rejected by the group with
an executed member, while re-saving the member itself succeeds. -/
theorem job_save_group_join_validation_witness :
    Job.save jN stW = .error (validationError ("Cannot add job [" ++ jN.name ++
      "] to group [" ++ groupReferenceOf stW jN.group ++
      "] because this group has executed jobs.")) ∧
    Job.save jT stW =
      .ok (upsertJob stW { jT with identity := identityOf jT.name jT.args jT.kwargs }) :=
  ⟨(job_save_group_join_validation stW jN 1 rfl).1 (by decide) (by decide),
   (job_save_group_join_validation stW jT 1 rfl).2.1 (by decide)⟩

/-- Claim C10: for a non-empty group all of whose members are terminal
solely via `cancelled` (no member ever executed), `latest_executed_job()`
returns nothing, and `estimate_execution_duration()` — which reaches
`self.latest_executed_job().executed` in its all-members-done arm — fails
with the escaping Python exception instead of returning a triple. -/
theorem estimate_all_cancelled_crashes
    (g : Group) (st : Store) (now : ℚ)
    (hne : groupJobs st g ≠ [])
    (hall : ∀ r ∈ groupJobs st g, r.executed = none ∧ r.cancelled ≠ none) :
    Group.latestExecutedJob g st = none ∧
    ∃ e, Group.estimateExecutionDuration g st now = .error e := by
  have hfilterex : (groupJobs st g).filter (fun r => r.executed.isSome) = [] :=
    List.filter_eq_nil_iff.mpr (fun r hr => by simp [(hall r hr).1])
  have hlat : Group.latestExecutedJob g st = none := by
    unfold Group.latestExecutedJob
    rw [hfilterex]
    rfl
  have hn : 0 < (groupJobs st g).length := List.length_pos.mpr hne
  have hcanc : (groupJobs st g).filter (fun r => r.cancelled.isSome) = groupJobs st g :=
    List.filter_eq_self.mpr (fun r hr => by
      simpa [Option.isSome_iff_ne_none] using (hall r hr).2)
  have hdone : ¬(doneCountOf st g = 0) := by
    unfold doneCountOf cancelledCountOf
    rw [hcanc]
    omega
  have hcomp : g.hasCompleted st none = true := by
    unfold Group.hasCompleted
    have hopen : (groupJobs st g).filter
        (fun r => r.executed.isNone && r.cancelled.isNone) = [] :=
      List.filter_eq_nil_iff.mpr (fun r hr => by
        have h2 := (hall r hr).2
        simp [Option.isNone_iff_eq_none, h2])
    dsimp only
    rw [hopen]
    simp [hn]
  refine ⟨hlat, ?_⟩
  unfold Group.estimateExecutionDuration
  rw [if_pos hn, if_neg hdone, hcomp]
  dsimp only
  rw [hlat]
  exact ⟨_, rfl⟩

def gAllCanc : Group := { id := some 1, reference := "R", created := 0 }

def stAllCanc : Store :=
  { jobs := [{ id := some 1, name := "t.f", group := some 1, cancelled := some 3 }],
    groups := [gAllCanc], nextJobId := 2, nextGroupId := 2 }

/-- Witness for C10 at a one-member group cancelled but never executed. -/
theorem estimate_all_cancelled_crashes_witness :
    Group.latestExecutedJob gAllCanc stAllCanc = none ∧
    ∃ e, Group.estimateExecutionDuration gAllCanc stAllCanc 50 = .error e :=
  estimate_all_cancelled_crashes gAllCanc stAllCanc 50 (by decide)
    (by decide)


/-- Claim C7 (amended): `estimate_execution_duration()` returns
(none, none, none) when the group has no members or no member is done;
when some but not all members are done it returns
`estimatedTotal = (seconds component of elapsed) / doneJobs * totalJobs`
— where the seconds component is `timedelta.seconds`, i.e. the floor of
`now - created` modulo one day, NOT the full elapsed duration the original
claim multiplies — together with `remaining = estimatedTotal - elapsed`
and `elapsed = now - created`; and when all members are done and at least
one was executed it returns
`estimatedTotal = elapsed = latest executed time - created`, remaining 0. -/
theorem estimate_execution_duration_spec (g : Group) (st : Store) (now : ℚ) :
    ((groupJobs st g).length = 0 ∨ doneCountOf st g = 0 →
      Group.estimateExecutionDuration g st now = .ok (none, none, none)) ∧
    (0 < (groupJobs st g).length → ¬(doneCountOf st g = 0) →
      g.hasCompleted st none = false →
      Group.estimateExecutionDuration g st now =
        .ok (some (((tdSeconds (now - g.created) : ℚ) / (doneCountOf st g : ℚ)) *
              ((groupJobs st g).length : ℚ)),
             some (((tdSeconds (now - g.created) : ℚ) / (doneCountOf st g : ℚ)) *
              ((groupJobs st g).length : ℚ) - (now - g.created)),
             some (now - g.created))) ∧
    (∀ jb te, g.hasCompleted st none = true →
      Group.latestExecutedJob g st = some jb → jb.executed = some te →
      Group.estimateExecutionDuration g st now =
        .ok (some (te - g.created), some 0, some (te - g.created))) := by
  refine ⟨?_, ?_, ?_⟩
  · intro h
    unfold Group.estimateExecutionDuration
    by_cases hl : 0 < (groupJobs st g).length
    · have hd : doneCountOf st g = 0 := by
        rcases h with h0 | hd
        · omega
        · exact hd
      rw [if_pos hl, if_pos hd]
    · rw [if_neg hl]
  · intro hn hd hnc
    unfold Group.estimateExecutionDuration
    rw [if_pos hn, if_neg hd, hnc]
    rfl
  · intro jb te hcomp hlat hte
    have hn : 0 < (groupJobs st g).length := by
      unfold Group.hasCompleted at hcomp
      dsimp only at hcomp
      simp only [Bool.and_eq_true, decide_eq_true_eq] at hcomp
      exact hcomp.1
    have hexpos : 0 < ((groupJobs st g).filter (fun r => r.executed.isSome)).length := by
      unfold Group.latestExecutedJob at hlat
      by_cases hc : 0 < ((groupJobs st g).filter (fun r => r.executed.isSome)).length
      · exact hc
      · rw [if_neg hc] at hlat
        simp at hlat
    have hd : ¬(doneCountOf st g = 0) := by
      unfold doneCountOf executedCountOf
      omega
    unfold Group.estimateExecutionDuration
    rw [if_pos hn, if_neg hd, hcomp]
    simp only [Bool.not_true]
    rw [if_neg (by simp)]
    rw [hlat]
    dsimp only
    rw [hte]

def gEst : Group := { id := some 1, reference := "R", created := 0 }

def stEst : Store :=
  { jobs := [ { id := some 1, name := "t.f", group := some 1, executed := some 100 }
            , { id := some 2, name := "t.f", group := some 1, cancelled := some 100 }
            , { id := some 3, name := "t.f", group := some 1 }
            , { id := some 4, name := "t.f", group := some 1 } ]
  , groups := [gEst], nextJobId := 5, nextGroupId := 2 }

/-- Claim C7 counterexample: a group of 4 with 2 members done, queried one
day and one minute after creation.  The source computes the estimate from
`time_consumed.seconds` — the seconds component 60, not the full 86460
seconds of elapsed time — and returns an estimatedTotal of 120 seconds,
where the claim's formula `elapsed * (totalJobs / doneJobs)` demands
86460 * (4 / 2) = 172920. -/
theorem estimate_seconds_component_counterexample :
    Group.estimateExecutionDuration gEst stEst 86460 =
      .ok (some 120, some (120 - 86460), some 86460) ∧
    (120 : ℚ) ≠ 86460 * ((4 : ℚ) / 2) := by
  constructor
  · have hn : 0 < (groupJobs stEst gEst).length := by decide
    have hd : ¬(doneCountOf stEst gEst = 0) := by decide
    have hnc : gEst.hasCompleted stEst none = false := by decide
    have hdc : doneCountOf stEst gEst = 2 := by decide
    have hlen : (groupJobs stEst gEst).length = 4 := by decide
    have ht : tdSeconds ((86460 : ℚ) - gEst.created) = 60 := by
      show tdSeconds ((86460 : ℚ) - 0) = 60
      unfold tdSeconds
      norm_num
    unfold Group.estimateExecutionDuration
    rw [if_pos hn, if_neg hd, hnc]
    dsimp only
    rw [ht, hdc, hlen]
    norm_num [gEst]
  · norm_num

def stGOnly : Store := { groups := [gW], nextGroupId := 2 }

def j2C : Job := { id := some 2, name := "t.f", group := some 1, cancelled := some 5 }

def stDone : Store :=
  { jobs := [jT, j2C], groups := [gW], nextJobId := 3, nextGroupId := 2 }

/-- Witness for the amended C7: the empty arm on a memberless group, the
extrapolation arm on the 2-of-4 group, and the all-done arm on a group
with one executed and one cancelled member. -/
theorem estimate_execution_duration_spec_witness :
    Group.estimateExecutionDuration gW stGOnly 9 = .ok (none, none, none) ∧
    Group.estimateExecutionDuration gEst stEst 86460 =
      .ok (some (((tdSeconds ((86460 : ℚ) - gEst.created) : ℚ) /
            (doneCountOf stEst gEst : ℚ)) * ((groupJobs stEst gEst).length : ℚ)),
           some (((tdSeconds ((86460 : ℚ) - gEst.created) : ℚ) /
            (doneCountOf stEst gEst : ℚ)) * ((groupJobs stEst gEst).length : ℚ) -
            ((86460 : ℚ) - gEst.created)),
           some ((86460 : ℚ) - gEst.created)) ∧
    Group.estimateExecutionDuration gW stDone 9 =
      .ok (some ((4 : ℚ) - gW.created), some 0, some ((4 : ℚ) - gW.created)) :=
  ⟨(estimate_execution_duration_spec gW stGOnly 9).1 (Or.inl (by decide)),
   (estimate_execution_duration_spec gEst stEst 86460).2.1 (by decide) (by decide) (by decide),
   (estimate_execution_duration_spec gW stDone 9).2.2 jT 4 (by decide) (by decide) rfl⟩


/-- Claim C5 (amended): `Group.save` raises the source's `ValidationError`
and persists nothing exactly when some job of another group (a stored
group with the same reference but a different id) is still open — the
second conjunct characterizes the guard.  The original claim's
consequence, "at most one open group per reference in every reachable
store", does NOT follow and is refuted by
`two_open_groups_same_reference_reachable`: the guard runs only on Group
writes, while Job writes may still open an older group with the same
reference. -/
theorem group_save_rejects_open_reference (st : Store) (g : Group) (now : ℚ) :
    (groupSaveBlocked st g = true →
      Group.save g st now = .error (validationError ("Group reference [" ++
        g.reference ++ "] still has unexecuted jobs."))) ∧
    (groupSaveBlocked st g = true ↔
      ∃ jb ∈ st.jobs, ∃ gid, jb.group = some gid ∧ ¬(g.id = some gid) ∧
        jb.executed = none ∧ jb.cancelled = none ∧
        ∃ gr, findGroup st gid = some gr ∧ gr.reference = g.reference) := by
  constructor
  · intro hb
    unfold Group.save
    rw [if_pos hb]
  · unfold groupSaveBlocked
    rw [List.any_eq_true]
    constructor
    · rintro ⟨jb, hjb, hpred⟩
      cases hg2 : jb.group with
      | none =>
        rw [hg2] at hpred
        simp at hpred
      | some gid =>
        rw [hg2] at hpred
        dsimp only at hpred
        cases hf : findGroup st gid with
        | none =>
          rw [hf] at hpred
          simp at hpred
        | some gr =>
          rw [hf] at hpred
          simp only [Bool.and_eq_true, decide_eq_true_eq,
            Option.isNone_iff_eq_none, Bool.not_eq_true',
            decide_eq_false_iff_not] at hpred
          obtain ⟨⟨⟨href, hex⟩, hcan⟩, hnid⟩ := hpred
          exact ⟨jb, hjb, gid, hg2, hnid, hex, hcan, gr, hf, href⟩
    · rintro ⟨jb, hjb, gid, hg2, hnid, hex, hcan, gr, hf, href⟩
      refine ⟨jb, hjb, ?_⟩
      simp [hg2, hf, href, hex, hcan, hnid]

def jOpen : Job := { id := some 1, name := "t.f", group := some 1 }

def stOpen : Store :=
  { jobs := [jOpen], groups := [gW], nextJobId := 2, nextGroupId := 2 }

def gR2 : Group := { reference := "R" }

/-- Witness for the amended C5: creating a second group under reference R
while the stored R-group still has an open member is rejected. -/
theorem group_save_rejects_open_reference_witness :
    Group.save gR2 stOpen 7 = .error (validationError ("Group reference [" ++
      gR2.reference ++ "] still has unexecuted jobs.")) ∧
    groupSaveBlocked stOpen gR2 = true :=
  ⟨(group_save_rejects_open_reference stOpen gR2 7).1 (by decide), by decide⟩

def c5G : Group := { reference := "R" }

def c5St1 : Store :=
  match Group.save c5G emptyStore 0 with
  | .ok s => s
  | .error _ => emptyStore

def c5St2 : Store :=
  match Group.save c5G c5St1 1 with
  | .ok s => s
  | .error _ => emptyStore

def c5J1 : Job := { name := "t.f", group := some 1 }

def c5J2 : Job := { name := "t.f", group := some 2 }

def c5Sv3 : Store × Job :=
  match Job.save c5J1 c5St2 with
  | .ok s => s
  | .error _ => (emptyStore, { name := "" })

def c5Sv4 : Store × Job :=
  match Job.save c5J2 c5Sv3.1 with
  | .ok s => s
  | .error _ => (emptyStore, { name := "" })

def c5G1row : Group := { id := some 1, reference := "R", created := 0 }

def c5G2row : Group := { id := some 2, reference := "R", created := 1 }

/-- Claim C5 counterexample: a store reachable through four committed
writes of the source's own persistence operations — save an empty group
under reference R, save a second (the guard passes: the first has no open
member), then save one open job into each — holds two groups with the
same reference that both have an open member. -/
theorem two_open_groups_same_reference_reachable :
    Reachable c5Sv4.1 ∧
    c5G1row ∈ c5Sv4.1.groups ∧ c5G2row ∈ c5Sv4.1.groups ∧
    ¬(c5G1row.id = c5G2row.id) ∧ c5G1row.reference = c5G2row.reference ∧
    isOpenGroup c5Sv4.1 c5G1row = true ∧ isOpenGroup c5Sv4.1 c5G2row = true := by
  refine ⟨?_, by decide, by decide, by decide, by decide, by decide, by decide⟩
  have r1 : Reachable c5St1 :=
    Reachable.step _ _ Reachable.init (Step.groupSaveStep _ c5G 0 _ rfl)
  have r2 : Reachable c5St2 :=
    Reachable.step _ _ r1 (Step.groupSaveStep _ c5G 1 _ rfl)
  have r3 : Reachable c5Sv3.1 :=
    Reachable.step _ _ r2 (Step.jobSaveStep _ c5J1 c5Sv3.1 c5Sv3.2 rfl)
  exact Reachable.step _ _ r3 (Step.jobSaveStep _ c5J2 c5Sv4.1 c5Sv4.2 rfl)

end Async
